import Mathlib

/-!
Shallow embedding of the PlayStats snapshot pipeline
(src/playstatsappcsv.py, with the legacy variant src/PlayStatsApp.py).

The embedding covers the parts the specification speaks about:
the per-row rank status computation and rank delta column of
collect_game_data, the row-building loop of collect_game_data
(detail lookup, type and exclusion filters, genre join, price),
the deduplication in save_snapshot, the merge of the main and
backup stores in load_merged_dataframe, the genre tokenization
used by the dashboard summary, and the abort path of main when
fetch_top_games returns an empty batch.

Conventions of the embedding:
  - A pandas or CSV cell is a Value: an integer, NaN (which also
    stands for Python None inside a DataFrame), or a string.
  - Network lookups are passed in as functions (the seam the spec
    names detail_lookup); returning none models a failed request
    or a missing key, which the code skips via try/except.
  - Strings that undergo character-level processing (the genre
    field) are lists of Unicode code points (List Nat), so that
    lower-casing, splitting and stripping are plain recursive
    functions; other strings are Lean String values.
  - Prices are exact rationals; the code divides an integer count
    of minor units by 100, which is exact in decimal.
-/

namespace PlayStats

/-- A cell of a DataFrame or CSV row: an integer, NaN (also modelling
Python None stored in a frame), or a string. -/
inductive Value where
  | int (n : Int)
  | nan
  | str (s : String)
deriving DecidableEq, Repr

/-- pd.isna, restricted to the cell values the pipeline produces:
true exactly on NaN / None. -/
def pdIsna : Value → Bool
  | Value.nan => true
  | _ => false

/-- Interpret a list of characters as a nonempty all-digit numeral. -/
def digitsToNat : List Char → Option Nat
  | [] => none
  | l =>
    if l.all (fun c => c.isDigit) then
      some (l.foldl (fun a c => a * 10 + (c.toNat - 48)) 0)
    else none

/-- Python int(s) on a string: optional sign followed by digits,
surrounding whitespace ignored; none when the string does not parse. -/
def parseIntStr (s : String) : Option Int :=
  match s.trim.toList with
  | [] => none
  | c :: cs =>
    if c = '-' then (digitsToNat cs).map (fun n => -(n : Int))
    else if c = '+' then (digitsToNat cs).map (fun n => (n : Int))
    else (digitsToNat (c :: cs)).map (fun n => (n : Int))

/-- Python int(v) on a cell: succeeds on integers and on integer
numerals in strings, fails (raises, modelled as none) on NaN / None
and on non-numeric strings. -/
def pyInt : Value → Option Int
  | Value.int n => some n
  | Value.nan => none
  | Value.str s => parseIntStr s

/-- pd.to_numeric(v, errors="coerce") on a cell, restricted to the
integer-valued data of this pipeline: integers pass through, NaN and
unparsable strings coerce to NaN (none). -/
def pdToNumeric : Value → Option Int
  | Value.int n => some n
  | Value.nan => none
  | Value.str s => parseIntStr s

/-- The numeric reading of a raw cell used as a subtraction operand
after fillna: only an integer cell is a number. -/
def valueNum : Value → Option Int
  | Value.int n => some n
  | _ => none

/-- compute_status from collect_game_data (playstatsappcsv.py lines
169-181): "new" when the previous rank is missing, otherwise compare
int(cur) against int(prev); any coercion failure falls through the
except to "same". -/
def compute_status (prev cur : Value) : String :=
  if pdIsna prev then "new"
  else
    match pyInt cur, pyInt prev with
    | some c, some p =>
      if c < p then "up"
      else if c > p then "down"
      else "same"
    | _, _ => "same"

/-- The delta_rank column (playstatsappcsv.py line 186):
pd.to_numeric(previous_rank).fillna(rank_position) - pd.to_numeric(rank_position).
none models NaN in the resulting column. -/
def deltaRank (prev cur : Value) : Option Int :=
  let filled : Value :=
    match pdToNumeric prev with
    | some n => Value.int n
    | none => cur
  match valueNum filled, pdToNumeric cur with
  | some a, some c => some (a - c)
  | _, _ => none

/-! ### Genre strings as lists of code points -/

/-- str.lower on one code point (ASCII case mapping, which is what the
genre vocabulary uses). -/
def lowerChar (c : Nat) : Nat :=
  if 65 ≤ c ∧ c ≤ 90 then c + 32 else c

/-- str.lower on a string of code points. -/
def pyLower (s : List Nat) : List Nat := s.map lowerChar

/-- Whitespace as stripped by str.strip on this data: space, tab,
line feed, carriage return. -/
def isSpaceChar (c : Nat) : Bool :=
  decide (c = 32 ∨ c = 9 ∨ c = 10 ∨ c = 13)

/-- str.strip: drop leading and trailing whitespace. -/
def pyStrip (s : List Nat) : List Nat :=
  ((s.dropWhile isSpaceChar).reverse.dropWhile isSpaceChar).reverse

/-- str.split(",") : split on every comma; empty pieces are kept, and
the empty string splits to one empty piece (code point 44 is the comma). -/
def splitComma : List Nat → List (List Nat)
  | [] => [[]]
  | c :: cs =>
    if c = 44 then [] :: splitComma cs
    else
      match splitComma cs with
      | [] => [[c]]
      | t :: ts => (c :: t) :: ts

/-- ", ".join(descriptions) (code points 44, 32 are comma and space). -/
def joinCommaSpace : List (List Nat) → List Nat
  | [] => []
  | d :: ds => d ++ ds.flatMap (fun x => [44, 32] ++ x)

/-- The genre cell built in collect_game_data (line 152):
", ".join of the genre descriptions when the genres list is nonempty,
else the empty string. -/
def genreString (genres : List (List Nat)) : List Nat :=
  if genres = [] then [] else joinCommaSpace genres

/-- The per-row genre tokenization used by the dashboard summary
(visualize_dashboard lines 240-249): lower-case the whole cell, split
on commas, strip each token, drop empty tokens. -/
def categoriesOf (s : List Nat) : List (List Nat) :=
  ((splitComma (pyLower s)).map pyStrip).filter (fun t => t ≠ [])

/-- Modelled from the spec wording, for comparison with categoriesOf:
the comma-joined string split into trimmed, lower-cased tokens with
empty tokens discarded. -/
def specCategoriesOf (s : List Nat) : List (List Nat) :=
  ((splitComma s).map (fun t => pyLower (pyStrip t))).filter (fun t => t ≠ [])

/-! ### Prices -/

/-- Rounding a rational to 2 decimal places. -/
def round2 (q : ℚ) : ℚ := ((round (q * 100) : ℤ) : ℚ) / 100

/-- The price cell built in collect_game_data (line 153):
final minor units divided by 100 when a price_overview block is
present, else 0.0. The legacy variant (PlayStatsApp.py line 53)
computes the same value through .get defaults. -/
def priceOf (price_overview : Option Int) : ℚ :=
  match price_overview with
  | some final => (final : ℚ) / 100
  | none => 0

/-! ### The ingestion loop of collect_game_data -/

/-- One raw entry of the ranking batch: the .get views of the appid,
rank and peak_in_game keys. -/
structure RankEntry where
  appid : Option Nat
  rank : Option Int
  peak_in_game : Option Int
deriving DecidableEq, Repr

/-- The "data" object of a store detail response; option fields model
the .get accesses on possibly missing keys. price_overview carries the
final minor-unit amount when the block is present. -/
structure AppData where
  type : Option String
  name : Option String
  genres : List (List Nat)
  price_overview : Option Int
  release_date : Option String
deriving DecidableEq, Repr

/-- The detail response for one app id: the success flag, and the
"data" object (none models a response whose data key is absent, which
the loop's except clause turns into a skip). -/
structure DetailResponse where
  success : Bool
  data : Option AppData
deriving DecidableEq, Repr

/-- One row appended by collect_game_data before the status and delta
columns are added (lines 149-159). -/
structure Row where
  app_id : Nat
  name : String
  genre : List Nat
  price : ℚ
  release_date : String
  rank_position : Value
  previous_rank : Value
  peak_in_game : Option Int
  snapshot_time : String
deriving DecidableEq, Repr

/-- A row after the rank_status and delta_rank columns are added
(lines 184-186). -/
structure ERow extends Row where
  rank_status : String
  delta_rank : Option Int
deriving DecidableEq, Repr

/-- The exclusion check: data.get("name") in BANNED_TITLES (a missing
name is not in the set). -/
def nameBanned (d : AppData) (exclusions : List String) : Bool :=
  match d.name with
  | some nm => exclusions.contains nm
  | none => false

/-- An Option Int cell as stored into a DataFrame: None becomes NaN. -/
def optValue : Option Int → Value
  | some n => Value.int n
  | none => Value.nan

/-- The BANNED_TITLES exclusion set (playstatsappcsv.py lines 31-37). -/
def BANNED_TITLES : List String :=
  ["Wallpaper Engine", "Soundpad", "SteamVR",
   "Steamworks Common Redistributables", "VRChat SDK",
   "Tabletop Simulator (Editor)", "Source Filmmaker",
   "RPG Maker MZ", "RPG Maker MV", "RPG Maker XP", "RPG Maker 2003",
   "3DMark", "FaceRig", "VoiceMod", "Wallpaper Engine - Editor"]

/-- The body of the collect_game_data loop for one raw entry (lines
124-159): skip on falsy appid, failed or missing detail lookup,
non-success response, missing data object, non-game type or excluded
name; otherwise build the row. -/
def processEntry (lookup : Nat → Option DetailResponse)
    (prev_ranks : Nat → Option Value) (snapshot : String)
    (exclusions : List String) (e : RankEntry) : Option Row :=
  match e.appid with
  | none => none
  | some app_id =>
    if app_id = 0 then none
    else
      match lookup app_id with
      | none => none
      | some entry =>
        if entry.success = false then none
        else
          match entry.data with
          | none => none
          | some d =>
            if d.type ≠ some "game" ∨ nameBanned d exclusions then none
            else
              some { app_id := app_id,
                     name := d.name.getD "Unknown",
                     genre := genreString d.genres,
                     price := priceOf d.price_overview,
                     release_date := d.release_date.getD "Unknown",
                     rank_position := optValue e.rank,
                     previous_rank := (prev_ranks app_id).getD Value.nan,
                     peak_in_game := e.peak_in_game,
                     snapshot_time := snapshot }

/-- Adding the rank_status and delta_rank columns to one row (lines
184-186). -/
def enrichRow (r : Row) : ERow :=
  { toRow := r,
    rank_status := compute_status r.previous_rank r.rank_position,
    delta_rank := deltaRank r.previous_rank r.rank_position }

/-- collect_game_data (lines 122-187): run the loop body over the
batch, then add the status and delta columns. -/
def collect_game_data (top_games : List RankEntry)
    (lookup : Nat → Option DetailResponse)
    (prev_ranks : Nat → Option Value) (snapshot : String) : List ERow :=
  (top_games.filterMap
      (processEntry lookup prev_ranks snapshot BANNED_TITLES)).map enrichRow

/-! ### Deduplication and the stores -/

section Dedup

variable {α κ : Type} [DecidableEq κ]

/-- df.drop_duplicates(subset=key, keep="last"): keep a row exactly
when no later row has the same key, preserving order. -/
def dedupLastBy (key : α → κ) : List α → List α
  | [] => []
  | r :: rs =>
    if rs.any (fun x => key x = key r) then dedupLastBy key rs
    else r :: dedupLastBy key rs

/-- Helper for keep="first" deduplication: drop a row whose key was
already seen. -/
def dedupFirstAux (key : α → κ) (seen : List κ) : List α → List α
  | [] => []
  | r :: rs =>
    if key r ∈ seen then dedupFirstAux key seen rs
    else r :: dedupFirstAux key (key r :: seen) rs

/-- df.drop_duplicates(subset=key) with the default keep="first":
keep a row exactly when no earlier row has the same key. -/
def dedupFirstBy (key : α → κ) (l : List α) : List α :=
  dedupFirstAux key [] l

end Dedup

/-- The deduplication key of a freshly collected row:
(app_id, snapshot_time). -/
def eKey (r : ERow) : Nat × String := (r.app_id, r.snapshot_time)

/-- save_snapshot (lines 190-209) acting on the persisted store: a
None or empty frame saves nothing and reports False; otherwise the
frame is deduplicated on (app_id, snapshot_time) — pandas default
keep="first" — and appended to the store. -/
def save_snapshot (df : List ERow) (store : List ERow) :
    List ERow × Bool :=
  if df = [] then (store, false)
  else (store ++ dedupFirstBy eKey df, true)

/-- One record parsed back from a store file; the key cells keep their
raw Value form. -/
structure CsvRow where
  app_id : Value
  snapshot_time : Value
  rest : List Value
deriving DecidableEq, Repr

/-- The deduplication key of a store record. -/
def csvKey (r : CsvRow) : Value × Value := (r.app_id, r.snapshot_time)

/-- load_merged_dataframe (lines 50-83): read each file, skipping
lines the parser rejects (on_bad_lines="skip"), concatenate main then
backup, and drop duplicate (app_id, snapshot_time) keys keeping the
last occurrence. The parser is the seam for the CSV reader. -/
def load_merged_dataframe (parse : List String → Option CsvRow)
    (main backup : List (List String)) : List CsvRow :=
  dedupLastBy csvKey (main.filterMap parse ++ backup.filterMap parse)

/-! ### Fetch and the main run -/

/-- TOP_N (line 25). -/
def TOP_N : Nat := 100

/-- fetch_top_games (lines 109-119): the response is none when the
request or status check raises, in which case the except clause
returns the empty list; otherwise the ranks list truncated to top_n. -/
def fetch_top_games (response : Option (List RankEntry))
    (top_n : Nat) : List RankEntry :=
  match response with
  | none => []
  | some ranks => ranks.take top_n

/-- main (lines 403-417) as a function of the fetch response and the
persisted store: when the fetched batch is empty the run aborts before
collect_game_data and save_snapshot, leaving the store unchanged. -/
def runMain (response : Option (List RankEntry))
    (lookup : Nat → Option DetailResponse)
    (prev_ranks : Nat → Option Value) (snapshot : String)
    (store : List ERow) : List ERow :=
  let top := fetch_top_games response TOP_N
  if top = [] then store
  else (save_snapshot (collect_game_data top lookup prev_ranks snapshot)
          store).1

/-! ### Concrete data used to exercise the pipeline -/

/-- A concrete detail data object of a plain game. -/
def dW : AppData := ⟨some "game", some "Witness Game", [], none, none⟩

/-- A successful detail response around dW. -/
def respW : DetailResponse := ⟨true, some dW⟩

/-- A detail lookup that always answers with respW. -/
def lookupW : Nat → Option DetailResponse := fun _ => some respW

/-- A concrete raw rank entry: appid 42 at rank 1 with peak 1000. -/
def eW1 : RankEntry := ⟨some 42, some 1, some 1000⟩

/-- The row the loop builds from eW1 and dW when appid 42 carried
previous rank 3. -/
def rW1 : Row :=
  ⟨42, "Witness Game", [], 0, "Unknown", Value.int 1, Value.int 3,
   some 1000, "t"⟩

/-- The row the loop builds from eW1 and dW when no previous rank is
known. -/
def rW3 : Row :=
  ⟨42, "Witness Game", [], 0, "Unknown", Value.int 1, Value.nan,
   some 1000, "t"⟩

/-- A concrete detail data object of a DLC (not of type "game"). -/
def dDlc : AppData := ⟨some "dlc", some "Some DLC", [], none, none⟩

/-- A successful detail response around dDlc. -/
def respDlc : DetailResponse := ⟨true, some dDlc⟩

/-- A detail lookup that always answers with respDlc. -/
def lookupDlc : Nat → Option DetailResponse := fun _ => some respDlc

/-- A concrete enriched row at key (42, "t"). -/
def rowA : ERow := ⟨rW1, "up", some 2⟩

/-- A different enriched row at the same key (42, "t"). -/
def rowB : ERow := ⟨{ rW1 with name := "Other Name" }, "up", some 2⟩

/-- A concrete two-column CSV parser: a line is well-formed exactly
when it has two fields. -/
def parseW : List String → Option CsvRow := fun l =>
  match l with
  | [a, t] => some ⟨Value.str a, Value.str t, []⟩
  | _ => none

/-! ## Helper lemmas -/

section DedupLemmas

variable {α κ : Type} [DecidableEq κ]

/-- Per-key content of keep="last" deduplication: each key keeps
exactly the last matching record of the input. -/
lemma dedupLastBy_filter (key : α → κ) (k : κ) :
    ∀ l : List α,
      (dedupLastBy key l).filter (fun r => key r = k) =
        ((l.filter (fun r => key r = k)).getLast?).toList := by
  intro l
  induction l with
  | nil => rfl
  | cons r rs ih =>
    unfold dedupLastBy
    by_cases hany : rs.any (fun x => key x = key r)
    · rw [if_pos hany, ih]
      by_cases hrk : key r = k
      · rw [List.filter_cons_of_pos (by simpa using hrk)]
        have hne : rs.filter (fun x => key x = k) ≠ [] := by
          rw [List.any_eq_true] at hany
          obtain ⟨x, hx, hkx⟩ := hany
          simp only [decide_eq_true_eq] at hkx
          intro hnil
          rw [List.filter_eq_nil_iff] at hnil
          exact hnil x hx (by simp [hkx, hrk])
        cases hflt : rs.filter (fun x => key x = k) with
        | nil => exact absurd hflt hne
        | cons y ys => rw [List.getLast?_cons_cons]
      · rw [List.filter_cons_of_neg (by simpa using hrk)]
    · rw [if_neg hany]
      by_cases hrk : key r = k
      · rw [List.filter_cons_of_pos (by simpa using hrk),
            List.filter_cons_of_pos (by simpa using hrk)]
        have hnil : rs.filter (fun x => key x = k) = [] := by
          rw [List.filter_eq_nil_iff]
          intro x hx
          simp only [decide_eq_true_eq]
          intro hkx
          exact hany (List.any_eq_true.mpr ⟨x, hx, by simp [hkx, hrk]⟩)
        rw [ih, hnil]
        rfl
      · rw [List.filter_cons_of_neg (by simpa using hrk),
            List.filter_cons_of_neg (by simpa using hrk), ih]

/-- keep="last" deduplication only keeps input records. -/
lemma dedupLastBy_subset (key : α → κ) :
    ∀ l : List α, ∀ x ∈ dedupLastBy key l, x ∈ l := by
  intro l
  induction l with
  | nil => intro x hx; exact absurd hx (by simp [dedupLastBy])
  | cons r rs ih =>
    intro x hx
    unfold dedupLastBy at hx
    by_cases hany : rs.any (fun y => key y = key r)
    · rw [if_pos hany] at hx
      exact List.mem_cons_of_mem r (ih x hx)
    · rw [if_neg hany] at hx
      rcases List.mem_cons.mp hx with rfl | hx'
      · exact List.mem_cons_self x rs
      · exact List.mem_cons_of_mem r (ih x hx')

/-- keep="last" deduplication leaves no two records with one key. -/
lemma dedupLastBy_pairwise (key : α → κ) :
    ∀ l : List α,
      List.Pairwise (fun a b => key a ≠ key b) (dedupLastBy key l) := by
  intro l
  induction l with
  | nil => exact List.Pairwise.nil
  | cons r rs ih =>
    unfold dedupLastBy
    by_cases hany : rs.any (fun x => key x = key r)
    · rw [if_pos hany]; exact ih
    · rw [if_neg hany]
      refine List.Pairwise.cons ?_ ih
      intro b hb
      have hbrs := dedupLastBy_subset key rs b hb
      intro heq
      exact hany (List.any_eq_true.mpr ⟨b, hbrs, by simp [heq]⟩)

/-- Per-key content of keep="first" deduplication, generalized over
the already-seen keys. -/
lemma dedupFirstAux_filter (key : α → κ) (k : κ) :
    ∀ (l : List α) (seen : List κ),
      (dedupFirstAux key seen l).filter (fun r => key r = k) =
        if k ∈ seen then []
        else ((l.filter (fun r => key r = k)).head?).toList := by
  intro l
  induction l with
  | nil =>
    intro seen
    by_cases hk : k ∈ seen <;> simp [dedupFirstAux, hk]
  | cons r rs ih =>
    intro seen
    unfold dedupFirstAux
    by_cases hm : key r ∈ seen
    · rw [if_pos hm, ih]
      by_cases hk : k ∈ seen
      · rw [if_pos hk, if_pos hk]
      · rw [if_neg hk, if_neg hk]
        have hrk : ¬ key r = k := fun h => hk (h ▸ hm)
        rw [List.filter_cons_of_neg (by simpa using hrk)]
    · rw [if_neg hm]
      by_cases hrk : key r = k
      · rw [List.filter_cons_of_pos (by simpa using hrk), ih]
        have hk : ¬ k ∈ seen := fun h => hm (hrk ▸ h)
        rw [if_neg hk,
            if_pos (by rw [← hrk]; exact List.mem_cons_self _ _),
            List.filter_cons_of_pos (by simpa using hrk)]
        rfl
      · rw [List.filter_cons_of_neg (by simpa using hrk), ih]
        by_cases hk : k ∈ seen
        · rw [if_pos hk, if_pos (List.mem_cons_of_mem _ hk)]
        · rw [if_neg hk,
              if_neg (by
                intro hx
                rcases List.mem_cons.mp hx with h | h
                · exact hrk h.symm
                · exact hk h),
              List.filter_cons_of_neg (by simpa using hrk)]

/-- Per-key content of keep="first" deduplication: each key keeps
exactly the first matching record of the input. -/
lemma dedupFirstBy_filter (key : α → κ) (k : κ) (l : List α) :
    (dedupFirstBy key l).filter (fun r => key r = k) =
      ((l.filter (fun r => key r = k)).head?).toList := by
  unfold dedupFirstBy
  rw [dedupFirstAux_filter key k l []]
  rfl

/-- keep="first" deduplication keeps no already-seen key and leaves
no two records with one key. -/
lemma dedupFirstAux_spec (key : α → κ) :
    ∀ (l : List α) (seen : List κ),
      (∀ x ∈ dedupFirstAux key seen l, key x ∉ seen) ∧
      List.Pairwise (fun a b => key a ≠ key b)
        (dedupFirstAux key seen l) := by
  intro l
  induction l with
  | nil => intro seen; exact ⟨by simp [dedupFirstAux], List.Pairwise.nil⟩
  | cons r rs ih =>
    intro seen
    unfold dedupFirstAux
    by_cases hm : key r ∈ seen
    · rw [if_pos hm]; exact ih seen
    · rw [if_neg hm]
      obtain ⟨hmem, hpw⟩ := ih (key r :: seen)
      constructor
      · intro x hx
        rcases List.mem_cons.mp hx with rfl | hx'
        · exact hm
        · intro hxs
          exact hmem x hx' (List.mem_cons_of_mem _ hxs)
      · refine List.Pairwise.cons ?_ hpw
        intro b hb heq
        exact hmem b hb (heq ▸ List.mem_cons_self _ _)

/-- keep="first" deduplication leaves no two records with one key. -/
lemma dedupFirstBy_pairwise (key : α → κ) (l : List α) :
    List.Pairwise (fun a b => key a ≠ key b) (dedupFirstBy key l) :=
  (dedupFirstAux_spec key l []).2

end DedupLemmas

/-- Lower-casing maps no other code point to the comma. -/
lemma lowerChar_eq_comma (c : Nat) : lowerChar c = 44 ↔ c = 44 := by
  unfold lowerChar
  split <;> omega

/-- Lower-casing neither creates nor destroys whitespace. -/
lemma isSpaceChar_lowerChar (c : Nat) :
    isSpaceChar (lowerChar c) = isSpaceChar c := by
  unfold isSpaceChar lowerChar
  split
  · exact decide_eq_decide.mpr (by omega)
  · rfl

/-- str.split(",") always yields at least one piece. -/
lemma splitComma_ne_nil (s : List Nat) : splitComma s ≠ [] := by
  cases s with
  | nil => simp [splitComma]
  | cons c cs =>
    unfold splitComma
    split
    · simp
    · split <;> simp

/-- Lower-casing commutes with splitting on commas. -/
lemma splitComma_pyLower (s : List Nat) :
    splitComma (pyLower s) = (splitComma s).map pyLower := by
  induction s with
  | nil => rfl
  | cons c cs ih =>
    show splitComma (lowerChar c :: pyLower cs) = _
    unfold splitComma
    by_cases hc : c = 44
    · rw [if_pos (by rw [lowerChar_eq_comma]; exact hc), if_pos hc, ih]
      rfl
    · rw [if_neg (by rw [lowerChar_eq_comma]; exact hc), if_neg hc, ih]
      cases hsc : splitComma cs with
      | nil => exact absurd hsc (splitComma_ne_nil cs)
      | cons t ts => rfl

/-- Lower-casing commutes with dropping leading whitespace. -/
lemma dropWhile_space_map (l : List Nat) :
    (l.map lowerChar).dropWhile isSpaceChar =
      (l.dropWhile isSpaceChar).map lowerChar := by
  rw [List.dropWhile_map]
  have h : (isSpaceChar ∘ lowerChar) = isSpaceChar :=
    funext isSpaceChar_lowerChar
  rw [h]

/-- Lower-casing commutes with stripping. -/
lemma pyStrip_pyLower (s : List Nat) :
    pyStrip (pyLower s) = pyLower (pyStrip s) := by
  unfold pyStrip pyLower
  rw [dropWhile_space_map, ← List.map_reverse, dropWhile_space_map,
      ← List.map_reverse]

/-- Inversion of the loop body: a produced row carries the looked-up
previous rank (NaN when absent) and the raw rank of its entry. -/
lemma processEntry_fields (lookup : Nat → Option DetailResponse)
    (prev_ranks : Nat → Option Value) (snapshot : String)
    (exclusions : List String) (e : RankEntry) (r : Row)
    (h : processEntry lookup prev_ranks snapshot exclusions e = some r) :
    ∃ a, e.appid = some a ∧
      r.previous_rank = (prev_ranks a).getD Value.nan ∧
      r.rank_position = optValue e.rank := by
  unfold processEntry at h
  split at h
  · exact absurd h (by simp)
  case _ a ha =>
    refine ⟨a, ha, ?_⟩
    split at h
    · exact absurd h (by simp)
    split at h
    · exact absurd h (by simp)
    split at h
    · exact absurd h (by simp)
    split at h
    · exact absurd h (by simp)
    split at h
    · exact absurd h (by simp)
    · obtain rfl := Option.some.inj h
      exact ⟨rfl, rfl⟩

/-- compute_status on two integer cells compares them with rank 1
best. -/
lemma compute_status_int (p c : Int) :
    (compute_status (Value.int p) (Value.int c) = "up" ↔ c < p) ∧
    (compute_status (Value.int p) (Value.int c) = "down" ↔ p < c) ∧
    (compute_status (Value.int p) (Value.int c) = "same" ↔ c = p) := by
  unfold compute_status
  simp only [pdIsna, pyInt, Bool.false_eq_true, if_false]
  split_ifs with h1 h2 <;> refine ⟨?_, ?_, ?_⟩ <;> simp <;> omega

/-! ## Claims -/

/-- C1: for every observation whose item identifier is present in
previous_ranks with integer rank p and whose current rank is integer
c, the delta computation assigns delta = p - c, and rank status "up"
iff c < p, "down" iff c > p, "same" iff c = p. -/
theorem c1_delta_status (lookup : Nat → Option DetailResponse)
    (prev_ranks : Nat → Option Value) (snapshot : String)
    (exclusions : List String) (e : RankEntry) (a : Nat) (p c : Int)
    (r : Row)
    (ha : e.appid = some a)
    (hp : prev_ranks a = some (Value.int p))
    (hc : e.rank = some c)
    (hr : processEntry lookup prev_ranks snapshot exclusions e = some r) :
    (enrichRow r).delta_rank = some (p - c) ∧
    ((enrichRow r).rank_status = "up" ↔ c < p) ∧
    ((enrichRow r).rank_status = "down" ↔ p < c) ∧
    ((enrichRow r).rank_status = "same" ↔ c = p) := by
  obtain ⟨a', ha', hprev, hcur⟩ :=
    processEntry_fields lookup prev_ranks snapshot exclusions e r hr
  rw [ha] at ha'
  obtain rfl := Option.some.inj ha'
  rw [hp] at hprev
  simp only [Option.getD_some] at hprev
  rw [hc] at hcur
  have hst : (enrichRow r).rank_status =
      compute_status (Value.int p) (Value.int c) := by
    show compute_status r.previous_rank r.rank_position = _
    rw [hprev, hcur]; rfl
  have hdl : (enrichRow r).delta_rank = some (p - c) := by
    show deltaRank r.previous_rank r.rank_position = _
    rw [hprev, hcur]; rfl
  rw [hst, hdl]
  exact ⟨rfl, compute_status_int p c⟩

/-- Witness for C1 at appid 42, previous rank 3, current rank 1. -/
theorem c1_delta_status_witness :
    (enrichRow rW1).delta_rank = some (3 - 1) ∧
    ((enrichRow rW1).rank_status = "up" ↔ (1 : Int) < 3) ∧
    ((enrichRow rW1).rank_status = "down" ↔ (3 : Int) < 1) ∧
    ((enrichRow rW1).rank_status = "same" ↔ (1 : Int) = 3) :=
  c1_delta_status lookupW (fun _ => some (Value.int 3)) "t" [] eW1
    42 3 1 rW1 rfl rfl rfl rfl

/-- C3: if the previous_ranks mapping is empty, every observation in
the output of collect_game_data has rank status "new". -/
theorem c3_empty_prev_all_new (top_games : List RankEntry)
    (lookup : Nat → Option DetailResponse) (snapshot : String)
    (er : ERow)
    (h : er ∈ collect_game_data top_games lookup (fun _ => none)
      snapshot) :
    er.rank_status = "new" := by
  unfold collect_game_data at h
  rw [List.mem_map] at h
  obtain ⟨r, hr, rfl⟩ := h
  rw [List.mem_filterMap] at hr
  obtain ⟨e, _, he⟩ := hr
  obtain ⟨a, _, hprev, _⟩ := processEntry_fields _ _ _ _ _ _ he
  simp only [Option.getD_none] at hprev
  show compute_status r.previous_rank r.rank_position = "new"
  rw [hprev]
  rfl

/-- Witness for C3 on a one-entry batch with no prior snapshot. -/
theorem c3_empty_prev_all_new_witness :
    (enrichRow rW3).rank_status = "new" :=
  c3_empty_prev_all_new [eW1] lookupW "t" (enrichRow rW3)
    (by show enrichRow rW3 ∈ [enrichRow rW3]
        exact List.mem_singleton.mpr rfl)

/-- C4: an observation whose item identifier is absent from
previous_ranks gets rank status "new" and rank delta 0 (the delta
column fills the missing previous rank with the current rank). -/
theorem c4_new_delta_zero (lookup : Nat → Option DetailResponse)
    (prev_ranks : Nat → Option Value) (snapshot : String)
    (exclusions : List String) (e : RankEntry) (a : Nat) (c : Int)
    (r : Row)
    (ha : e.appid = some a)
    (hp : prev_ranks a = none)
    (hc : e.rank = some c)
    (hr : processEntry lookup prev_ranks snapshot exclusions e = some r) :
    (enrichRow r).rank_status = "new" ∧
    (enrichRow r).delta_rank = some 0 := by
  obtain ⟨a', ha', hprev, hcur⟩ :=
    processEntry_fields lookup prev_ranks snapshot exclusions e r hr
  rw [ha] at ha'
  obtain rfl := Option.some.inj ha'
  rw [hp] at hprev
  simp only [Option.getD_none] at hprev
  rw [hc] at hcur
  constructor
  · show compute_status r.previous_rank r.rank_position = "new"
    rw [hprev]
    rfl
  · show deltaRank r.previous_rank r.rank_position = some 0
    rw [hprev, hcur]
    simp [deltaRank, pdToNumeric, valueNum, optValue]

/-- Witness for C4 at appid 42, current rank 1, no previous rank. -/
theorem c4_new_delta_zero_witness :
    (enrichRow rW3).rank_status = "new" ∧
    (enrichRow rW3).delta_rank = some 0 :=
  c4_new_delta_zero lookupW (fun _ => none) "t" [] eW1 42 1 rW3
    rfl rfl rfl rfl

/-- C6: the price is 0 without a pricing block, and otherwise the raw
minor-unit integer divided by 100, on which rounding to 2 decimal
places is exact. -/
theorem c6_price :
    priceOf none = 0 ∧
    ∀ final : Int, priceOf (some final) = round2 ((final : ℚ) / 100) := by
  refine ⟨rfl, fun f => ?_⟩
  unfold priceOf round2
  rw [div_mul_cancel₀ ((f : ℚ)) (by norm_num : (100 : ℚ) ≠ 0)]
  rw [round_intCast]

/-- C7: an entry whose detail record is not of type "game", or whose
name is in the exclusion set, produces no observation. -/
theorem c7_policy_filter (lookup : Nat → Option DetailResponse)
    (prev_ranks : Nat → Option Value) (snapshot : String)
    (exclusions : List String) (e : RankEntry) (a : Nat)
    (resp : DetailResponse) (d : AppData)
    (ha : e.appid = some a)
    (hl : lookup a = some resp)
    (hd : resp.data = some d)
    (hbad : d.type ≠ some "game" ∨ nameBanned d exclusions = true) :
    processEntry lookup prev_ranks snapshot exclusions e = none := by
  unfold processEntry
  simp only [ha, hl, hd]
  by_cases h0 : a = 0
  · rw [if_pos h0]
  · rw [if_neg h0]
    by_cases hs : resp.success = false
    · rw [if_pos hs]
    · rw [if_neg hs, if_pos hbad]

/-- Witness for C7: a successful detail lookup of type "dlc" is
dropped. -/
theorem c7_policy_filter_witness :
    processEntry lookupDlc (fun _ => none) "t" [] eW1 = none :=
  c7_policy_filter lookupDlc (fun _ => none) "t" [] eW1 42 respDlc
    dDlc rfl rfl rfl (Or.inl (by decide))

/-- C9: when the whole-batch fetch fails, fetch_top_games returns the
empty batch and the run leaves the store untouched. -/
theorem c9_abort_no_write (lookup : Nat → Option DetailResponse)
    (prev_ranks : Nat → Option Value) (snapshot : String)
    (store : List ERow) :
    fetch_top_games none TOP_N = [] ∧
    runMain none lookup prev_ranks snapshot store = store :=
  ⟨rfl, rfl⟩

/-- C10: compute_status is total; when the previous rank is present
but either rank fails integer coercion, it returns "same". -/
theorem c10_coercion_failure_same (prev cur : Value)
    (hna : pdIsna prev = false)
    (hfail : pyInt prev = none ∨ pyInt cur = none) :
    compute_status prev cur = "same" := by
  unfold compute_status
  rw [hna]
  simp only [Bool.false_eq_true, if_false]
  rcases hfail with h | h
  · rw [h]
    cases hcur : pyInt cur <;> rfl
  · rw [h]

/-- Witness for C10: previous rank 5 present, current rank cell NaN. -/
theorem c10_coercion_failure_same_witness :
    compute_status (Value.int 5) Value.nan = "same" :=
  c10_coercion_failure_same (Value.int 5) Value.nan rfl (Or.inr rfl)

/-- C2 counterexample: save_snapshot deduplicates with the pandas
default keep="first", so of two input records sharing the key
(42, "t") the batch keeps the first-seen record, not the last-seen
one the claim states. -/
theorem c2_counterexample_first_kept :
    eKey rowA = eKey rowB ∧ rowA ≠ rowB ∧
    (save_snapshot [rowA, rowB] []).1 = [rowA] ∧
    ¬ (save_snapshot [rowA, rowB] []).1 = [rowB] := by
  refine ⟨rfl, ?_, rfl, ?_⟩ <;> decide

/-- C2 amended: the rows persisted for one batch never contain two
records with the same (item identifier, snapshot timestamp) key, and
when duplicates occur in the input the first-seen record for that key
is the one kept. -/
theorem c2_unique_first_seen (df store : List ERow) (k : Nat × String)
    (hne : df ≠ []) :
    (save_snapshot df store).1 = store ++ dedupFirstBy eKey df ∧
    List.Pairwise (fun a b => eKey a ≠ eKey b) (dedupFirstBy eKey df) ∧
    (dedupFirstBy eKey df).filter (fun r => eKey r = k) =
      ((df.filter (fun r => eKey r = k)).head?).toList := by
  refine ⟨?_, dedupFirstBy_pairwise eKey df, dedupFirstBy_filter eKey k df⟩
  unfold save_snapshot
  rw [if_neg hne]

/-- Witness for the amended C2 on the duplicate batch [rowA, rowB]. -/
theorem c2_unique_first_seen_witness :
    (save_snapshot [rowA, rowB] []).1 =
      [] ++ dedupFirstBy eKey [rowA, rowB] ∧
    List.Pairwise (fun a b => eKey a ≠ eKey b)
      (dedupFirstBy eKey [rowA, rowB]) ∧
    (dedupFirstBy eKey [rowA, rowB]).filter
        (fun r => eKey r = (42, "t")) =
      (([rowA, rowB].filter (fun r => eKey r = (42, "t"))).head?).toList :=
  c2_unique_first_seen [rowA, rowB] [] (42, "t") (by simp)

/-- C8: merging the primary and backup stores unions their parsed
records keyed by (item identifier, snapshot timestamp), keeps exactly
the last-seen record per key, and drops malformed lines without
failing the merge. -/
theorem c8_merge_last_seen (parse : List String → Option CsvRow)
    (main backup xs ys : List (List String)) (bad : List String)
    (k : Value × Value)
    (hbad : parse bad = none) :
    (load_merged_dataframe parse main backup).filter
        (fun r => csvKey r = k) =
      (((main.filterMap parse ++ backup.filterMap parse).filter
        (fun r => csvKey r = k)).getLast?).toList ∧
    List.Pairwise (fun a b => csvKey a ≠ csvKey b)
      (load_merged_dataframe parse main backup) ∧
    load_merged_dataframe parse (xs ++ bad :: ys) backup =
      load_merged_dataframe parse (xs ++ ys) backup := by
  refine ⟨dedupLastBy_filter csvKey k _, dedupLastBy_pairwise csvKey _, ?_⟩
  unfold load_merged_dataframe
  rw [List.filterMap_append, List.filterMap_append,
      List.filterMap_cons_none hbad]

/-- Witness for C8: the key (1, t) duplicated across the two stores,
with a malformed one-field line dropped from the primary. -/
theorem c8_merge_last_seen_witness :
    (load_merged_dataframe parseW [["1", "t"]] [["1", "t"]]).filter
        (fun r => csvKey r = (Value.str "1", Value.str "t")) =
      ((([["1", "t"]].filterMap parseW ++
          [["1", "t"]].filterMap parseW).filter
        (fun r => csvKey r = (Value.str "1", Value.str "t"))).getLast?).toList ∧
    List.Pairwise (fun a b => csvKey a ≠ csvKey b)
      (load_merged_dataframe parseW [["1", "t"]] [["1", "t"]]) ∧
    load_merged_dataframe parseW ([["2", "t"]] ++ ["bad"] :: [])
        [["1", "t"]] =
      load_merged_dataframe parseW ([["2", "t"]] ++ []) [["1", "t"]] :=
  c8_merge_last_seen parseW [["1", "t"]] [["1", "t"]] [["2", "t"]] []
    ["bad"] (Value.str "1", Value.str "t") rfl

/-- C5: the category list the dashboard derives from an observation
genre cell equals the comma-joined description string split into
trimmed, lower-cased tokens with empty tokens discarded. -/
theorem c5_category_tokens (genres : List (List Nat)) :
    categoriesOf (genreString genres) =
      specCategoriesOf (genreString genres) := by
  generalize genreString genres = s
  unfold categoriesOf specCategoriesOf
  rw [splitComma_pyLower, List.map_map]
  have h : (pyStrip ∘ pyLower) = fun t => pyLower (pyStrip t) :=
    funext pyStrip_pyLower
  rw [h]

end PlayStats
